import Mathlib

/-!
# Verification of the evalml pipeline orchestration layer

Shallow embedding of the repository's pipeline base class
(`evalml/pipelines/pipeline_base.py`), component wrapper base class
(`evalml/pipelines/components/component_base.py`) and objective wrappers
(`evalml/objectives/standard_metrics.py`), together with theorems settling
the specification claims about them.

Tabular data is modelled as a `Frame` (column names plus rational-valued
rows), label sequences as `Series := List ℚ`, and Python exceptions as the
inductive `PyError`.  Fallible code returns `Except PyError _`.  Python
`dict`s (insertion-ordered, update-in-place) are modelled as association
lists with the update operation `dictUpd`.
-/

/-- Python exception kinds that the embedded code can raise. -/
inductive PyError where
  | valueError
  | runtimeError
  | attributeError
  | indexError
  deriving DecidableEq, Repr

/-- A label / prediction sequence (`pd.Series`). -/
abbrev Series := List ℚ

/-- A feature table (`pd.DataFrame`): column names plus rows.
`list(pd.DataFrame(X))` in the source is `X.cols` here. -/
structure Frame where
  cols : List String
  rows : List (List ℚ)
  deriving DecidableEq, Repr

/-- A 2-d probability array (`np.ndarray` of shape `(n_rows, ncols)`).
The column count is carried explicitly, as numpy keeps the shape even
when there are no rows. -/
structure NMat where
  ncols : Nat
  rows : List (List ℚ)
  deriving DecidableEq, Repr

/-- `proba[:, j]`: numpy column extraction, raising `IndexError` when the
column index is out of range. Missing entries of ragged rows default to 0
(numpy arrays are rectangular, so this default is never observable). -/
def matCol (m : NMat) (j : Nat) : Except PyError Series :=
  if j < m.ncols then .ok (m.rows.map (fun r => r.getD j 0)) else .error .indexError

/-- A prediction payload: either a 1-d series (labels or a single
probability column) or a full probability matrix. -/
abbrev PVal := Series ⊕ NMat

/-- Python `dict` update of one key: replace the value in place when the key
is present (keeping its position), otherwise append the new entry. -/
def dictUpd {α : Type} : List (String × α) → String → α → List (String × α)
  | [], k, v => [(k, v)]
  | (k', v') :: rest, k, v =>
      if k' = k then (k, v) :: rest else (k', v') :: dictUpd rest k v

/-- Association-list lookup (Python `d[k]` / `k in d`). -/
def dictFind {α : Type} : List (String × α) → String → Option α
  | [], _ => none
  | (k', v') :: rest, k => if k' = k then some v' else dictFind rest k

/-- `dict(pairs)` / `OrderedDict(zip(names, scores))`: insert the pairs left
to right with `dictUpd`, so a repeated key keeps its first position but its
last value. -/
def odFromPairs {α : Type} (pairs : List (String × α)) : List (String × α) :=
  pairs.foldl (fun d kv => dictUpd d kv.1 kv.2) []

theorem dictUpd_not_mem {α : Type} (d : List (String × α)) (k : String) (v : α)
    (h : ∀ p ∈ d, p.1 ≠ k) : dictUpd d k v = d ++ [(k, v)] := by
  induction d with
  | nil => rfl
  | cons p rest ih =>
      obtain ⟨k', v'⟩ := p
      have hk : k' ≠ k := h (k', v') (List.mem_cons_self _ _)
      simp only [dictUpd, if_neg hk, List.cons_append, List.cons.injEq, true_and]
      exact ih (fun q hq => h q (List.mem_cons_of_mem _ hq))

theorem odFromPairs_go {α : Type} (pairs : List (String × α)) (acc : List (String × α))
    (hnd : (pairs.map Prod.fst).Nodup)
    (hdisj : ∀ p ∈ acc, ∀ q ∈ pairs, p.1 ≠ q.1) :
    pairs.foldl (fun d kv => dictUpd d kv.1 kv.2) acc = acc ++ pairs := by
  induction pairs generalizing acc with
  | nil => simp
  | cons kv rest ih =>
      obtain ⟨k, v⟩ := kv
      simp only [List.foldl_cons]
      have hupd : dictUpd acc k v = acc ++ [(k, v)] :=
        dictUpd_not_mem acc k v (fun p hp => hdisj p hp (k, v) (List.mem_cons_self _ _))
      rw [hupd, ih]
      · simp
      · exact (List.nodup_cons.mp (by simpa using hnd)).2
      · intro p hp q hq
        rcases List.mem_append.mp hp with hp1 | hp2
        · exact hdisj p hp1 q (List.mem_cons_of_mem _ hq)
        · have hpk : p = (k, v) := by simpa using hp2
          have : q.1 ∈ rest.map Prod.fst := List.mem_map_of_mem Prod.fst hq
          have hknotin : k ∉ rest.map Prod.fst :=
            (List.nodup_cons.mp (by simpa using hnd)).1
          intro hcontra
          rw [hpk] at hcontra
          have hk2 : k = q.1 := hcontra
          rw [hk2] at hknotin
          exact hknotin this

/-- With pairwise-distinct keys, `OrderedDict(zip ...)` is just the pair
list itself. -/
theorem odFromPairs_nodup {α : Type} (pairs : List (String × α))
    (hnd : (pairs.map Prod.fst).Nodup) : odFromPairs pairs = pairs := by
  simpa [odFromPairs] using odFromPairs_go pairs [] hnd (by intro p hp; simp at hp)

/-! ## The objective wrappers (`evalml/objectives/standard_metrics.py`)

Each objective's `score` calls one fixed function from the wrapped
library's `metrics` module, with arguments `(y_true, y_predicted)`.  The
library functions themselves are external, so they are a parameter
(`SkMetrics`) of the embedding. -/

/-- The external `sklearn.metrics` functions the objective wrappers call.
Their numerical behaviour is outside the repository, so they are abstract
fields here; what the repository fixes is only *which* field each
objective calls. -/
structure SkMetrics where
  f1_score : Series → Series → ℚ
  precision_score : Series → Series → ℚ
  roc_auc_score : Series → Series → ℚ
  log_loss : Series → Series → ℚ
  matthews_corrcoef : Series → Series → ℚ
  r2_score : Series → Series → ℚ

namespace F1

def needs_fitting : Bool := false

def greater_is_better : Bool := true

def name : String := "F1"

/-- `F1.score(y_predicted, y_true)` returns `metrics.f1_score(y_true, y_predicted)`. -/
def score (m : SkMetrics) (y_predicted y_true : Series) : ℚ :=
  m.f1_score y_true y_predicted

end F1

namespace Precision

def name : String := "Precision"

/-- `Precision.score` returns `metrics.precision_score(y_true, y_predicted)`. -/
def score (m : SkMetrics) (y_predicted y_true : Series) : ℚ :=
  m.precision_score y_true y_predicted

end Precision

namespace Recall

def name : String := "Recall"

/-- `Recall.score(y_predicted, y_true)` returns
`metrics.f1_score(y_true, y_predicted)` — the f1 function, not a recall
metric. -/
def score (m : SkMetrics) (y_predicted y_true : Series) : ℚ :=
  m.f1_score y_true y_predicted

end Recall

/-! ## The component wrapper (`evalml/pipelines/components/component_base.py`)

`ComponentBase.fit` does
```
try:
    return self._component_obj.fit(X, y)
except AttributeError:
    raise RuntimeError("Component requires a fit method or a component_obj that implements fit")
```
The wrapped object is modelled as an optional record whose `fit` field is
present exactly when the object has a `fit` method; the method itself may
raise.  Its Python return value (the fitted library object) is opaque to
the callers in this repository and is modelled as `ℚ`. -/

/-- A wrapped third-party library object as seen by `ComponentBase.fit`:
it may or may not expose a `fit` method, and that method may itself raise. -/
structure ComponentObj where
  fit : Option (Frame → Series → Except PyError ℚ)

/-- Evaluating `self._component_obj.fit(X, y)` inside the `try` block:
an absent wrapped object (`None._component_obj` access) or an absent `fit`
attribute raises `AttributeError`; otherwise the wrapped method runs. -/
def delegateFit (co : Option ComponentObj) (X : Frame) (y : Series) : Except PyError ℚ :=
  match co with
  | none => .error .attributeError
  | some o =>
      match o.fit with
      | none => .error .attributeError
      | some f => f X y

/-- `ComponentBase.fit`: run the delegation and translate `AttributeError`
— whatever its origin — into `RuntimeError`. -/
def componentFit (co : Option ComponentObj) (X : Frame) (y : Series) : Except PyError ℚ :=
  match delegateFit co X y with
  | .error .attributeError => .error .runtimeError
  | r => r

/-! ## The pipeline data model (`evalml/pipelines/pipeline_base.py`)

A pipeline holds an ordered list of components; all but the last are
transformers and the last must be an estimator.  The concrete component
classes (imputers, scalers, ...) are not part of the repository's sources,
so a component is modelled by its interface: its name, the parameter names
its constructor accepts (what `inspect.signature` reports), its stored
parameter mapping, its fitted state, and its behaviour functions.  Fitting
is modelled functionally: the fitted state is the training data the
component saw, and the behaviour functions take that state as input
(Python mutates the component in place; here the updated component is
returned). -/

/-- A transformer component.  `transformCore` models the (possibly
state-dependent) `transform` method; `fit_transform` runs it on the state
just installed by `fit`.  `transform`'s optional second argument mirrors
the Python signature `transform(X, y=None)`. -/
structure Transformer where
  name : String
  needs_fitting : Bool
  ctorParams : List String
  parameters : List (String × ℚ)
  state : Option (Frame × Series)
  transformCore : Option (Frame × Series) → Frame → Option Series → Frame

/-- An estimator component.  `predictCore` / `predictProbaCore` model the
`predict` / `predict_proba` methods as functions of the fitted state. -/
structure EstimatorC where
  name : String
  ctorParams : List String
  parameters : List (String × ℚ)
  state : Option (Frame × Series)
  predictCore : Option (Frame × Series) → Frame → Series
  predictProbaCore : Option (Frame × Series) → Frame → NMat

/-- A pipeline component: a transformer or an estimator
(`isinstance(c, Estimator)` is the `estimator` case). -/
inductive Component where
  | transformer : Transformer → Component
  | estimator : EstimatorC → Component

/-- `component.name`. -/
def Component.name : Component → String
  | .transformer t => t.name
  | .estimator e => e.name

/-- `inspect.signature(component.__init__).parameters` — the names the
component's constructor accepts. -/
def Component.ctorParams : Component → List String
  | .transformer t => t.ctorParams
  | .estimator e => e.ctorParams

/-- `component.parameters`. -/
def Component.parameters : Component → List (String × ℚ)
  | .transformer t => t.parameters
  | .estimator e => e.parameters

/-- `isinstance(component, Estimator)`. -/
def Component.isEstimator : Component → Bool
  | .transformer _ => false
  | .estimator _ => true

/-- An objective as the pipeline sees it: the flag set from
`ObjectiveBase`, the fitted decision parameter (for objectives that need
their own fitting pass, e.g. a decision threshold), and the behaviour
functions `fit` / `predict` / `score`, each in its plain and
extra-columns form.  Python mutates `objective.fit`'s result into the
objective; here `fitParam` carries that state. -/
structure Objective where
  name : String
  needs_fitting : Bool
  fit_needs_proba : Bool
  score_needs_proba : Bool
  uses_extra_columns : Bool
  greater_is_better : Bool
  fitParam : Option ℚ
  fitCore1 : PVal → Series → ℚ
  fitCore2 : PVal → Series → Frame → ℚ
  predictCore1 : Option ℚ → PVal → Series
  predictCore2 : Option ℚ → PVal → Frame → Series
  scoreCore1 : PVal → Series → ℚ
  scoreCore2 : PVal → Series → Frame → ℚ

/-- The pipeline state after `__init__`.  `estimator` aliases the last
entry of `component_list` (Python keeps one object in both places; the
embedding keeps the two fields consistent). -/
structure Pipeline where
  objective : Objective
  component_list : List Component
  estimator : EstimatorC
  input_feature_names : List (String × List String)
  name : String
  n_jobs : ℚ
  random_state : ℚ
  parameters : List (String × ℚ)

/-! ### Name generation -/

/-- The naming loop shared by `_generate_name` and `generate_name`:
start from the estimator's name; the component at index 0 is appended
with `" w/ "`, later ones with `" + "`. -/
def nameLoop (est : String) (ts : List String) : String :=
  ts.enum.foldl (fun acc p => acc ++ (if p.1 = 0 then " w/ " else " + ") ++ p.2) est

/-- The classmethod `PipelineBase.generate_name`: index `component_list[-1]`
(raising `IndexError` on an empty list) and run the naming loop over the
remaining components. -/
def generateName (cl : List Component) : Except PyError String :=
  match cl.getLast? with
  | none => .error .indexError
  | some c => .ok (nameLoop c.name (cl.dropLast.map Component.name))

/-! ### Construction -/

/-- `dict.update(other)` over association lists: apply `dictUpd` entry by
entry in `other`'s order. -/
def dictUpdMany {α : Type} (d other : List (String × α)) : List (String × α) :=
  other.foldl (fun a kv => dictUpd a kv.1 kv.2) d

/-- The body of `_instantiate_components` for one component: extend the
keyword arguments with `n_jobs` and `random_state`, then keep exactly the
entries whose names match the component constructor's parameters. -/
def relevantArgs (ctorParams : List String) (kwargs : List (String × ℚ))
    (nJobs randomState : ℚ) : List (String × ℚ) :=
  (dictUpd (dictUpd kwargs "n_jobs" nJobs) "random_state" randomState).filter
    (fun kv => ctorParams.contains kv.1)

/-- Modelled from the spec: the concrete component classes are not under
the sources, and per the spec a component's construction records the
matched keyword arguments as its parameter mapping ("parameters filled via
reflection-based argument matching"), resetting any fitted state. -/
def reinstantiate (c : Component) (args : List (String × ℚ)) : Component :=
  match c with
  | .transformer t => .transformer { t with parameters := args, state := none }
  | .estimator e => .estimator { e with parameters := args, state := none }

/-- The components the `_instantiate_components` loop constructs via
`component.__class__(**relevant_args)`.  The loop binds each new instance
to its own loop variable and never writes it back into
`self.component_list`, so this list is computed and then discarded: the
pipeline keeps the original components. -/
def instantiatedComponents (cl : List Component) (kwargs : List (String × ℚ))
    (nJobs randomState : ℚ) : List Component :=
  cl.map (fun c => reinstantiate c (relevantArgs c.ctorParams kwargs nJobs randomState))

/-- `PipelineBase.__init__`: resolve the components, check that the last
one is an estimator (raising `ValueError` otherwise, and `IndexError` on
an empty list, since `component_list[-1]` is read first), generate the
name, run `_instantiate_components` (whose instances are discarded), and
accumulate `parameters` from the components actually held in
`component_list`. -/
def mkPipeline (obj : Objective) (cl : List Component) (nJobs randomState : ℚ)
    (kwargs : List (String × ℚ)) : Except PyError Pipeline :=
  match cl.getLast? with
  | none => .error .indexError
  | some c =>
      match c with
      | .transformer _ => .error .valueError
      | .estimator e =>
          .ok { objective := obj
                component_list := cl
                estimator := e
                input_feature_names := []
                name := nameLoop e.name (cl.dropLast.map Component.name)
                n_jobs := nJobs
                random_state := randomState
                parameters := cl.foldl (fun acc c => dictUpdMany acc c.parameters) [] }

/-! ### The transform / fit / predict chain -/

/-- `component.transform(X_t)` as called in `_transform`: a one-argument
call.  An estimator sitting in a non-final slot has no `transform` method,
which in Python raises `AttributeError`. -/
def componentTransform1 (c : Component) (X : Frame) : Except PyError Frame :=
  match c with
  | .transformer t => .ok (t.transformCore t.state X none)
  | .estimator _ => .error .attributeError

/-- `PipelineBase._transform`: thread `X` through
`component_list[:-1]` with one-argument `transform` calls. -/
def transformP (p : Pipeline) (X : Frame) : Except PyError Frame :=
  p.component_list.dropLast.foldlM (fun Xt c => componentTransform1 c Xt) X

/-- One iteration of the `_fit` loop body for a non-final component:
`fit_transform(X_t, y_t)` when the component needs fitting (install the
training data as the fitted state, then transform), else
`transform(X_t, y_t)`.  A non-final estimator raises `AttributeError`. -/
def componentFitStep (c : Component) (X : Frame) (y : Series) :
    Except PyError (Component × Frame) :=
  match c with
  | .transformer t =>
      if t.needs_fitting then
        let t' : Transformer := { t with state := some (X, y) }
        .ok (.transformer t', t'.transformCore t'.state X (some y))
      else
        .ok (.transformer t, t.transformCore t.state X (some y))
  | .estimator _ => .error .attributeError

/-- The `_fit` loop over `component_list[:-1]`: before each component runs,
record `list(pd.DataFrame(X_t))` under the component's name in
`input_feature_names`; thread the transformed frame onward. -/
def fitLoop : List Component → Frame → Series → List (String × List String) →
    Except PyError (List Component × Frame × List (String × List String))
  | [], X, _, ifn => .ok ([], X, ifn)
  | c :: rest, X, y, ifn => do
      let ifn1 := dictUpd ifn c.name X.cols
      let (c', X') ← componentFitStep c X y
      let (rest', Xf, ifnf) ← fitLoop rest X' y ifn1
      .ok (c' :: rest', Xf, ifnf)

/-- `PipelineBase._fit`: run the loop over the non-final components, record
the estimator's input feature names, and fit the estimator on the final
transformed frame.  Python fits the estimator object in place — the same
object is `component_list[-1]` and `self.estimator` — so both fields are
updated here. -/
def pfitInternal (p : Pipeline) (X : Frame) (y : Series) : Except PyError Pipeline := do
  let (cs', Xf, ifn1) ← fitLoop p.component_list.dropLast X y p.input_feature_names
  let ifn2 := dictUpd ifn1 p.estimator.name Xf.cols
  let e' : EstimatorC := { p.estimator with state := some (Xf, y) }
  .ok { p with component_list := cs' ++ [Component.estimator e']
               input_feature_names := ifn2
               estimator := e' }

/-- `PipelineBase.predict_proba`: replay the transform chain, get the
probability matrix from the estimator, and return `proba[:, 1]` when
`proba.shape[1] <= 2`, the full matrix otherwise. -/
def predictProbaP (p : Pipeline) (X : Frame) : Except PyError PVal := do
  let Xt ← transformP p X
  let proba := p.estimator.predictProbaCore p.estimator.state Xt
  if proba.ncols ≤ 2 then do
    let c ← matCol proba 1
    .ok (.inl c)
  else
    .ok (.inr proba)

/-- `PipelineBase.predict`: transform, then — when the objective needs its
own fitting pass — route the raw predictions (labels or probabilities,
per `fit_needs_proba`) through `objective.predict`, passing `X` along
when the objective uses extra columns; otherwise call the estimator's
`predict` on the transformed frame.  The second `self._transform(X)` call
of the source's inner branch is replayed verbatim. -/
def predictP (p : Pipeline) (X : Frame) : Except PyError Series := do
  let Xt ← transformP p X
  if p.objective.needs_fitting then
    if p.objective.fit_needs_proba then do
      let v ← predictProbaP p X
      if p.objective.uses_extra_columns then
        .ok (p.objective.predictCore2 p.objective.fitParam v X)
      else
        .ok (p.objective.predictCore1 p.objective.fitParam v)
    else do
      let Xt2 ← transformP p X
      let yp := p.estimator.predictCore p.estimator.state Xt2
      if p.objective.uses_extra_columns then
        .ok (p.objective.predictCore2 p.objective.fitParam (.inl yp) X)
      else
        .ok (p.objective.predictCore1 p.objective.fitParam (.inl yp))
  else
    .ok (p.estimator.predictCore p.estimator.state Xt)

/-- Modelled from the spec: `sklearn.model_selection.train_test_split` is
external to the repository.  The spec only requires a held-out split of a
fixed fraction (`objective_fit_size = 0.2`) chosen deterministically from
the random seed; it is modelled as taking the last ⌈n/5⌉ rows as the
held-out part. -/
def trainTestSplit (X : Frame) (y : Series) : Frame × Frame × Series × Series :=
  let n := X.rows.length
  let nTest := (n + 4) / 5
  let nTrain := n - nTest
  (⟨X.cols, X.rows.take nTrain⟩, ⟨X.cols, X.rows.drop nTrain⟩,
   y.take nTrain, y.drop nTrain)

/-- `PipelineBase.fit`: when the objective needs fitting, carve out the
held-out part, `_fit` on the rest, predict on the held-out part
(probabilities when `fit_needs_proba`), and fit the objective on those
predictions; otherwise just `_fit`. -/
def pfit (p : Pipeline) (X : Frame) (y : Series) : Except PyError Pipeline :=
  if p.objective.needs_fitting then do
    let (Xtr, Xobj, ytr, yobj) := trainTestSplit X y
    let p1 ← pfitInternal p Xtr ytr
    let yPred ← (if p1.objective.fit_needs_proba then predictProbaP p1 Xobj
                 else (predictP p1 Xobj).map Sum.inl)
    let param := if p1.objective.uses_extra_columns then
                   p1.objective.fitCore2 yPred yobj Xobj
                 else
                   p1.objective.fitCore1 yPred yobj
    .ok { p1 with objective := { p1.objective with fitParam := some param } }
  else
    pfitInternal p X y

/-! ### Scoring -/

/-- `objective.score(y_predictions, y)` or
`objective.score(y_predictions, y, X)` per `uses_extra_columns`. -/
def scoreVal (obj : Objective) (v : PVal) (y : Series) (X : Frame) : ℚ :=
  if obj.uses_extra_columns then obj.scoreCore2 v y X else obj.scoreCore1 v y

/-- The running state of the `score` loop: the two prediction caches
(`y_predicted`, `y_predicted_proba`, both starting as `None`), call
counters recording how many times `predict` / `predict_proba` were
actually invoked, and the scores collected so far (in reverse). -/
structure ScoreAcc where
  yPred : Option Series
  yProba : Option PVal
  predCalls : Nat
  probaCalls : Nat
  scoresRev : List ℚ

/-- One iteration of the `score` loop: pick the cached array of the kind
the objective needs, computing and caching it only when the cache is
still `None`, then append the objective's score. -/
def scoreStep (p : Pipeline) (X : Frame) (y : Series) (acc : ScoreAcc)
    (obj : Objective) : Except PyError ScoreAcc :=
  if obj.score_needs_proba then
    match acc.yProba with
    | some v => .ok { acc with scoresRev := scoreVal obj v y X :: acc.scoresRev }
    | none => do
        let v ← predictProbaP p X
        .ok { acc with yProba := some v, probaCalls := acc.probaCalls + 1,
                       scoresRev := scoreVal obj v y X :: acc.scoresRev }
  else
    match acc.yPred with
    | some s => .ok { acc with scoresRev := scoreVal obj (.inl s) y X :: acc.scoresRev }
    | none => do
        let s ← predictP p X
        .ok { acc with yPred := some s, predCalls := acc.predCalls + 1,
                       scoresRev := scoreVal obj (.inl s) y X :: acc.scoresRev }

/-- The `score` loop over `[self.objective] + other_objectives`, starting
from empty caches. -/
def scoreLoop (p : Pipeline) (X : Frame) (y : Series) (objs : List Objective) :
    Except PyError ScoreAcc :=
  objs.foldlM (scoreStep p X y) ⟨none, none, 0, 0, []⟩

/-- `PipelineBase.score`: run the loop; return `scores[0]` alone with an
empty mapping when no additional objectives were requested, else paired
with `OrderedDict(zip([n.name for n in other_objectives], scores[1:]))`. -/
def scoreP (p : Pipeline) (X : Frame) (y : Series) (others : List Objective) :
    Except PyError (ℚ × List (String × ℚ)) := do
  let acc ← scoreLoop p X y (p.objective :: others)
  match acc.scoresRev.reverse with
  | [] => .error .indexError
  | s0 :: restScores =>
      if others.isEmpty then .ok (s0, [])
      else .ok (s0, odFromPairs ((others.map Objective.name).zip restScores))

/-! ## Concrete instances used by witnesses and counterexamples -/

/-- A simple imputer-like transformer: needs fitting, identity transform. -/
def impEx : Transformer where
  name := "Simple Imputer"
  needs_fitting := true
  ctorParams := ["strategy", "n_jobs", "random_state"]
  parameters := [("strategy", 0)]
  state := none
  transformCore := fun _ X _ => X

/-- A transformer that appends a marker to every column name, so the
frames threaded through the chain are observable. -/
def renameEx : Transformer where
  name := "Column Marker"
  needs_fitting := false
  ctorParams := ["random_state"]
  parameters := []
  state := none
  transformCore := fun _ X _ => ⟨X.cols.map (fun s => s ++ "x"), X.rows⟩

/-- A simple estimator: predicts the constant label 0 for every row and a
two-column probability matrix. -/
def estEx : EstimatorC where
  name := "Random Forest Classifier"
  ctorParams := ["n_estimators", "n_jobs", "random_state"]
  parameters := [("n_estimators", 10)]
  state := none
  predictCore := fun _ X => X.rows.map (fun _ => 0)
  predictProbaCore := fun _ X => ⟨2, X.rows.map (fun _ => [1/2, 1/2])⟩

/-- An estimator whose probability output has a single column (as a
wrapped classifier trained on a single class produces). -/
def estOneColEx : EstimatorC where
  name := "One Class Classifier"
  ctorParams := ["random_state"]
  parameters := []
  state := none
  predictCore := fun _ X => X.rows.map (fun _ => 0)
  predictProbaCore := fun _ X => ⟨1, X.rows.map (fun _ => [1])⟩

/-- A plain objective that needs no fitting (like all the objectives in
`standard_metrics.py`); its score is the length of the true-label series. -/
def objEx : Objective where
  name := "F1"
  needs_fitting := false
  fit_needs_proba := false
  score_needs_proba := false
  uses_extra_columns := false
  greater_is_better := true
  fitParam := none
  fitCore1 := fun _ _ => 0
  fitCore2 := fun _ _ _ => 0
  predictCore1 := fun _ v => match v with | .inl s => s | .inr _ => []
  predictCore2 := fun _ v _ => match v with | .inl s => s | .inr _ => []
  scoreCore1 := fun _ y => (y.length : ℚ)
  scoreCore2 := fun _ y _ => (y.length : ℚ)

/-- An objective that needs its own fitting pass and whose `predict`
post-processing maps every raw prediction to the constant label 1. -/
def objNeedsFitEx : Objective where
  name := "Fraud Cost"
  needs_fitting := true
  fit_needs_proba := false
  score_needs_proba := false
  uses_extra_columns := false
  greater_is_better := true
  fitParam := none
  fitCore1 := fun _ _ => 0
  fitCore2 := fun _ _ _ => 0
  predictCore1 := fun _ v => match v with | .inl s => s.map (fun _ => 1) | .inr _ => []
  predictCore2 := fun _ v _ => match v with | .inl s => s.map (fun _ => 1) | .inr _ => []
  scoreCore1 := fun _ y => (y.length : ℚ)
  scoreCore2 := fun _ y _ => (y.length : ℚ)

/-- A small feature table with one column and five rows. -/
def frameEx : Frame := ⟨["a"], [[1], [2], [3], [4], [5]]⟩

/-- Labels for `frameEx`. -/
def yEx : Series := [0, 1, 0, 1, 0]

/-! ## C1 — a non-estimator last component fails construction -/

/-- C1: for every component list whose last element is not an estimator,
`PipelineBase.__init__` raises `ValueError` immediately, whatever the
objective, job count, seed and keyword arguments. -/
theorem C1_last_component_not_estimator_raises (obj : Objective) (cl : List Component)
    (nJobs randomState : ℚ) (kwargs : List (String × ℚ)) (c : Component)
    (hlast : cl.getLast? = some c) (hnotest : c.isEstimator = false) :
    mkPipeline obj cl nJobs randomState kwargs = .error .valueError := by
  unfold mkPipeline
  rw [hlast]
  cases c with
  | transformer t => rfl
  | estimator e => simp [Component.isEstimator] at hnotest

/-- Witness for C1: a pipeline ending in the imputer transformer is
rejected with `ValueError`. -/
theorem C1_last_component_not_estimator_raises_witness :
    mkPipeline objEx [Component.transformer impEx] 1 0 [] = .error .valueError :=
  C1_last_component_not_estimator_raises objEx [Component.transformer impEx] 1 0 []
    (Component.transformer impEx) rfl rfl

/-! ## C4 — ComponentBase.fit delegation and error translation -/

/-- C4 counterexample: the claim says `fit` raises `RuntimeError` *if and
only if* the wrapped object has no fit method, and that exceptions raised
by the wrapped library's own fit are propagated unchanged.  But the
`except AttributeError` clause also catches an `AttributeError` raised
*inside* the wrapped fit: here the wrapped object does have a fit method,
that method raises `AttributeError`, and `ComponentBase.fit` translates it
into `RuntimeError` instead of propagating it. -/
theorem C4_fit_delegation_counterexample :
    (ComponentObj.mk (some (fun _ _ => .error .attributeError))).fit.isSome = true ∧
    componentFit (some (ComponentObj.mk (some (fun _ _ => .error .attributeError))))
      frameEx yEx = .error .runtimeError := by
  exact ⟨rfl, rfl⟩

/-- C4 (amended): `fit(X, y)` delegates to the wrapped object's fit; it
raises `RuntimeError` exactly when the delegated call raises
`AttributeError` — which covers a missing wrapped object or a missing fit
method, but also an `AttributeError` raised inside the wrapped fit itself
— or when the wrapped fit raises `RuntimeError` (which propagates
unchanged); every outcome of the delegation other than `AttributeError`
(success, or any other exception) is propagated unchanged. -/
theorem C4_fit_delegation_amended (co : Option ComponentObj) (X : Frame) (y : Series) :
    (componentFit co X y = .error .runtimeError ↔
      (delegateFit co X y = .error .attributeError ∨
       delegateFit co X y = .error .runtimeError)) ∧
    (∀ r : ℚ, delegateFit co X y = .ok r → componentFit co X y = .ok r) ∧
    (∀ e : PyError, e ≠ .attributeError → delegateFit co X y = .error e →
      componentFit co X y = .error e) := by
  have hcf : componentFit co X y =
      match delegateFit co X y with
      | .error .attributeError => .error .runtimeError
      | r => r := rfl
  refine ⟨⟨fun h => ?_, fun h => ?_⟩, fun r hr => ?_, fun e he hdel => ?_⟩
  · rcases hdel : delegateFit co X y with e | r
    · cases e <;> rw [hdel] at hcf <;> rw [hcf] at h <;> simp_all
    · rw [hdel] at hcf; rw [hcf] at h; simp_all
  · rcases h with h | h <;> rw [h] at hcf <;> exact hcf
  · rw [hr] at hcf; exact hcf
  · rw [hdel] at hcf
    cases e <;> simp_all

/-- Witness for C4 (amended), at a wrapped object whose fit succeeds with
value 7. -/
theorem C4_fit_delegation_amended_witness :
    (componentFit (some (ComponentObj.mk (some (fun _ _ => .ok 7)))) frameEx yEx
        = .error .runtimeError ↔
      (delegateFit (some (ComponentObj.mk (some (fun _ _ => .ok 7)))) frameEx yEx
          = .error .attributeError ∨
       delegateFit (some (ComponentObj.mk (some (fun _ _ => .ok 7)))) frameEx yEx
          = .error .runtimeError)) ∧
    (∀ r : ℚ, delegateFit (some (ComponentObj.mk (some (fun _ _ => .ok 7)))) frameEx yEx
        = .ok r →
      componentFit (some (ComponentObj.mk (some (fun _ _ => .ok 7)))) frameEx yEx = .ok r) ∧
    (∀ e : PyError, e ≠ .attributeError →
      delegateFit (some (ComponentObj.mk (some (fun _ _ => .ok 7)))) frameEx yEx = .error e →
      componentFit (some (ComponentObj.mk (some (fun _ _ => .ok 7)))) frameEx yEx = .error e) :=
  C4_fit_delegation_amended (some (ComponentObj.mk (some (fun _ _ => .ok 7)))) frameEx yEx

/-! ## C9 — Recall scores with the f1 function -/

/-- C9: for every metrics library and every pair of inputs, the Recall
objective's score equals the F1 objective's score, because `Recall.score`
delegates to the library's `f1_score` function (not a recall metric). -/
theorem C9_recall_score_equals_f1_score (m : SkMetrics) (y_predicted y_true : Series) :
    Recall.score m y_predicted y_true = F1.score m y_predicted y_true := rfl

/-! ## C7 — deterministic pipeline name -/

/-- The claim's concatenation rule, tail part: `" + "` before each
subsequent transformer's name. -/
def tailNames : List String → String
  | [] => ""
  | n :: rest => " + " ++ n ++ tailNames rest

/-- The claim's concatenation rule: the estimator's name, then `" w/ "`
followed by the first transformer's name if any transformers are present,
then `" + "` followed by each subsequent transformer's name in order. -/
def specNameRule (est : String) : List String → String
  | [] => est
  | t :: rest => est ++ " w/ " ++ t ++ tailNames rest

theorem nameLoop_tail (rest : List String) : ∀ (k : Nat) (acc : String),
    (List.enumFrom (k + 1) rest).foldl
      (fun acc p => acc ++ (if p.1 = 0 then " w/ " else " + ") ++ p.2) acc
      = acc ++ tailNames rest := by
  induction rest with
  | nil => intro k acc; simp [tailNames, List.enumFrom]
  | cons n rest ih =>
      intro k acc
      simp only [List.enumFrom, List.foldl_cons]
      rw [if_neg (Nat.succ_ne_zero k)]
      rw [ih (k + 1)]
      simp [tailNames, String.append_assoc]

/-- The source's indexed naming loop equals the claim's concatenation
rule. -/
theorem nameLoop_eq_specNameRule (est : String) (ts : List String) :
    nameLoop est ts = specNameRule est ts := by
  cases ts with
  | nil => rfl
  | cons t rest =>
      unfold nameLoop specNameRule
      simp only [List.enum, List.enumFrom, List.foldl_cons, reduceIte]
      exact nameLoop_tail rest 0 ((est ++ " w/ ") ++ t)

/-- C7: for every component ordering whose last element is an estimator,
the classmethod `generate_name` returns exactly the deterministic
concatenation rule, and the instance name assigned by `__init__`
(via `_generate_name`) is the same string. -/
theorem C7_generated_name_deterministic (cl : List Component) (e : EstimatorC)
    (obj : Objective) (nJobs randomState : ℚ) (kwargs : List (String × ℚ))
    (hlast : cl.getLast? = some (Component.estimator e)) :
    generateName cl = .ok (specNameRule e.name (cl.dropLast.map Component.name)) ∧
    (∀ p : Pipeline, mkPipeline obj cl nJobs randomState kwargs = .ok p →
      p.name = specNameRule e.name (cl.dropLast.map Component.name)) := by
  constructor
  · unfold generateName
    rw [hlast]
    show Except.ok (nameLoop (Component.estimator e).name (cl.dropLast.map Component.name)) = _
    rw [nameLoop_eq_specNameRule]
    rfl
  · intro p hp
    unfold mkPipeline at hp
    rw [hlast] at hp
    cases hp
    exact nameLoop_eq_specNameRule _ _

/-- The component ordering used by several witnesses: two transformers
followed by an estimator. -/
def clEx : List Component :=
  [Component.transformer impEx, Component.transformer renameEx, Component.estimator estEx]

/-- Witness for C7: on `clEx` the generated name is
`"Random Forest Classifier w/ Simple Imputer + Column Marker"`, both from
the classmethod and on the constructed pipeline instance. -/
theorem C7_generated_name_deterministic_witness :
    generateName clEx = .ok "Random Forest Classifier w/ Simple Imputer + Column Marker" ∧
    (∀ p : Pipeline, mkPipeline objEx clEx 1 0 [] = .ok p →
      p.name = "Random Forest Classifier w/ Simple Imputer + Column Marker") := by
  have h := C7_generated_name_deterministic clEx estEx objEx 1 0 [] rfl
  exact ⟨h.1, h.2⟩

/-! ## C5 — component instantiation from keyword arguments -/

/-- C5 (code bug): the `_instantiate_components` loop builds each new
component with the reflection-filtered keyword arguments but binds it to
the loop variable only — `component = component.__class__(**relevant_args)`
— and never writes it back into `self.component_list`.  At the failing
input (an imputer-like transformer whose default `strategy` parameter is
`0`, constructed with keyword argument `strategy = 2`), the pipeline's
accumulated parameter mapping still holds the default `strategy = 0`,
while the components the loop built (and discarded) carry the supplied
value plus `n_jobs` and `random_state`, as the claim expects. -/
theorem C5_supplied_kwargs_do_not_reach_pipeline :
    (mkPipeline objEx [Component.transformer impEx, Component.estimator estEx] 1 0
        [("strategy", 2)]).map Pipeline.parameters =
      .ok [("strategy", 0), ("n_estimators", 10)] ∧
    (instantiatedComponents [Component.transformer impEx, Component.estimator estEx]
        [("strategy", 2)] 1 0).map Component.parameters =
      [[("strategy", 2), ("n_jobs", 1), ("random_state", 0)],
       [("n_jobs", 1), ("random_state", 0)]] := by
  exact ⟨rfl, rfl⟩

/-! ## C10 — predict_proba column slicing -/

/-- C10 (amended): `predict_proba` returns the second probability column
exactly when the estimator's probability output has exactly two columns;
with more than two columns it returns the full matrix; with fewer than
two columns (a single-class or empty output, still `shape[1] <= 2`) the
slice `proba[:, 1]` raises `IndexError` instead of returning anything. -/
theorem C10_predict_proba_second_column_amended (p : Pipeline) (X Xt : Frame)
    (ht : transformP p X = .ok Xt) :
    ((p.estimator.predictProbaCore p.estimator.state Xt).ncols = 2 →
      predictProbaP p X =
        .ok (.inl ((p.estimator.predictProbaCore p.estimator.state Xt).rows.map
          (fun r => r.getD 1 0)))) ∧
    (2 < (p.estimator.predictProbaCore p.estimator.state Xt).ncols →
      predictProbaP p X = .ok (.inr (p.estimator.predictProbaCore p.estimator.state Xt))) ∧
    ((p.estimator.predictProbaCore p.estimator.state Xt).ncols ≤ 1 →
      predictProbaP p X = .error .indexError) := by
  have hpp : predictProbaP p X =
      (transformP p X).bind (fun Xt =>
        let proba := p.estimator.predictProbaCore p.estimator.state Xt
        if proba.ncols ≤ 2 then (matCol proba 1).bind (fun c => .ok (.inl c))
        else .ok (.inr proba)) := rfl
  rw [ht] at hpp
  simp only [Except.bind] at hpp
  refine ⟨fun h2 => ?_, fun hgt => ?_, fun hle => ?_⟩
  · rw [hpp]
    rw [if_pos (by omega)]
    unfold matCol
    rw [if_pos (by omega)]
  · rw [hpp]
    rw [if_neg (by omega)]
  · rw [hpp]
    rw [if_pos (by omega)]
    unfold matCol
    rw [if_neg (by omega)]

/-- An unfitted estimator-only pipeline over the single-class estimator,
as `__init__` builds it. -/
def pOneCol0 : Pipeline where
  objective := objEx
  component_list := [Component.estimator estOneColEx]
  estimator := estOneColEx
  input_feature_names := []
  name := estOneColEx.name
  n_jobs := 1
  random_state := 0
  parameters := []

/-- The single-class pipeline after `fit` on the example data. -/
def pOneColFit : Pipeline := (pfit pOneCol0 frameEx yEx).toOption.getD pOneCol0

/-- C10 counterexample: the claim says that whenever the probability
output has *at most* two columns, `predict_proba` returns the second
column.  On a fitted pipeline whose estimator produces a single-column
probability output (one column ≤ 2), the slice `proba[:, 1]` raises
`IndexError` instead of returning the second column. -/
theorem C10_predict_proba_counterexample :
    (pOneColFit.estimator.predictProbaCore pOneColFit.estimator.state frameEx).ncols ≤ 2 ∧
    predictProbaP pOneColFit frameEx = .error .indexError := ⟨by decide, rfl⟩

/-- An unfitted estimator-only pipeline over the two-column estimator. -/
def pTwoCol0 : Pipeline where
  objective := objEx
  component_list := [Component.estimator estEx]
  estimator := estEx
  input_feature_names := []
  name := estEx.name
  n_jobs := 1
  random_state := 0
  parameters := []

/-- The two-column pipeline after `fit` on the example data. -/
def pTwoColFit : Pipeline := (pfit pTwoCol0 frameEx yEx).toOption.getD pTwoCol0

/-- Witness for C10 (amended), on the fitted two-column pipeline. -/
theorem C10_predict_proba_second_column_amended_witness :
    ((pTwoColFit.estimator.predictProbaCore pTwoColFit.estimator.state frameEx).ncols = 2 →
      predictProbaP pTwoColFit frameEx =
        .ok (.inl ((pTwoColFit.estimator.predictProbaCore pTwoColFit.estimator.state
          frameEx).rows.map (fun r => r.getD 1 0)))) ∧
    (2 < (pTwoColFit.estimator.predictProbaCore pTwoColFit.estimator.state frameEx).ncols →
      predictProbaP pTwoColFit frameEx =
        .ok (.inr (pTwoColFit.estimator.predictProbaCore pTwoColFit.estimator.state frameEx))) ∧
    ((pTwoColFit.estimator.predictProbaCore pTwoColFit.estimator.state frameEx).ncols ≤ 1 →
      predictProbaP pTwoColFit frameEx = .error .indexError) :=
  C10_predict_proba_second_column_amended pTwoColFit frameEx frameEx rfl

/-! ## C2 — fit-then-predict agrees with the estimator on transformed features -/

/-- `m >>= f` on a raised exception propagates the exception. -/
theorem bind_err {α β : Type} (e : PyError) (f : α → Except PyError β) :
    (Except.error e >>= f : Except PyError β) = Except.error e := rfl

/-- `m >>= f` on a successful value applies the continuation. -/
theorem bind_ok {α β : Type} (a : α) (f : α → Except PyError β) :
    (Except.ok a >>= f : Except PyError β) = f a := rfl

/-- `_fit` leaves the objective untouched. -/
theorem pfitInternal_objective (p p' : Pipeline) (X : Frame) (y : Series)
    (h : pfitInternal p X y = .ok p') : p'.objective = p.objective := by
  unfold pfitInternal at h
  rcases hf : fitLoop p.component_list.dropLast X y p.input_feature_names with e | trip
  · rw [hf, bind_err] at h
    cases h
  · rw [hf] at h
    obtain ⟨cs', Xf, ifnf⟩ := trip
    rw [bind_ok] at h
    cases h
    rfl

/-- C2 (amended): for every pipeline whose objective does not need its own
fitting pass, `fit` followed by `predict` on the same data returns exactly
the wrapped estimator's `predict` applied to the features produced by
threading the data through the pipeline's transform chain.  (The original
claim, quantified over *every* pipeline, fails when the objective needs
fitting: `predict` then routes the raw predictions through
`objective.predict`.) -/
theorem C2_fit_predict_refines_estimator_amended (p p' : Pipeline) (X : Frame) (y : Series)
    (hnf : p.objective.needs_fitting = false)
    (hfit : pfit p X y = .ok p') :
    predictP p' X =
      (transformP p' X).map (fun Xt => p'.estimator.predictCore p'.estimator.state Xt) := by
  unfold pfit at hfit
  rw [hnf] at hfit
  simp only [Bool.false_eq_true, if_false] at hfit
  have hobj : p'.objective = p.objective := pfitInternal_objective p p' X y hfit
  unfold predictP
  rw [hobj, hnf]
  simp only [Bool.false_eq_true, if_false]
  rcases ht : transformP p' X with e | Xt
  · rfl
  · rfl

/-- Witness for C2 (amended): fitting the two-column pipeline (plain
objective) and predicting on the same data equals the estimator's predict
on the transformed features. -/
theorem C2_fit_predict_refines_estimator_amended_witness :
    pfit pTwoCol0 frameEx yEx = .ok pTwoColFit ∧
    predictP pTwoColFit frameEx =
      (transformP pTwoColFit frameEx).map
        (fun Xt => pTwoColFit.estimator.predictCore pTwoColFit.estimator.state Xt) :=
  ⟨rfl, C2_fit_predict_refines_estimator_amended pTwoCol0 pTwoColFit frameEx yEx rfl rfl⟩

/-- An unfitted estimator-only pipeline whose objective needs its own
fitting pass. -/
def pNeedsFit0 : Pipeline where
  objective := objNeedsFitEx
  component_list := [Component.estimator estEx]
  estimator := estEx
  input_feature_names := []
  name := estEx.name
  n_jobs := 1
  random_state := 0
  parameters := []

/-- `pNeedsFit0` after `fit` on the example data. -/
def pNeedsFitFit : Pipeline := (pfit pNeedsFit0 frameEx yEx).toOption.getD pNeedsFit0

/-- C2 counterexample: with an objective that needs its own fitting pass,
`fit` succeeds, but `predict` routes the raw predictions through
`objective.predict` (here mapping them all to 1), while the wrapped
estimator's predict on the transformed features returns all 0 — so the
claim, quantified over every fitted pipeline, is false. -/
theorem C2_fit_predict_refines_estimator_counterexample :
    pfit pNeedsFit0 frameEx yEx = .ok pNeedsFitFit ∧
    predictP pNeedsFitFit frameEx = .ok [1, 1, 1, 1, 1] ∧
    (transformP pNeedsFitFit frameEx).map
        (fun Xt => pNeedsFitFit.estimator.predictCore pNeedsFitFit.estimator.state Xt) =
      .ok [0, 0, 0, 0, 0] ∧
    ([1, 1, 1, 1, 1] : Series) ≠ [0, 0, 0, 0, 0] :=
  ⟨rfl, rfl, rfl, by decide⟩

/-! ## C3 / C8 — the scoring loop -/

/-- One successful scoring step appends exactly one score. -/
theorem scoreStep_len (p : Pipeline) (X : Frame) (y : Series) (acc a1 : ScoreAcc)
    (obj : Objective) (h : scoreStep p X y acc obj = .ok a1) :
    a1.scoresRev.length = acc.scoresRev.length + 1 := by
  unfold scoreStep at h
  by_cases hb : obj.score_needs_proba = true
  · rw [if_pos hb] at h
    rcases hc : acc.yProba with _ | v
    · rw [hc] at h
      rcases hpp : predictProbaP p X with e | v
      · rw [hpp, bind_err] at h; cases h
      · rw [hpp, bind_ok] at h; cases h; rfl
    · rw [hc] at h; cases h; rfl
  · rw [if_neg hb] at h
    rcases hc : acc.yPred with _ | s
    · rw [hc] at h
      rcases hpp : predictP p X with e | s
      · rw [hpp, bind_err] at h; cases h
      · rw [hpp, bind_ok] at h; cases h; rfl
    · rw [hc] at h; cases h; rfl

/-- One successful scoring step preserves the cache/counter invariant:
each prediction kind has been computed exactly as many times as its cache
is filled. -/
theorem scoreStep_inv (p : Pipeline) (X : Frame) (y : Series) (acc a1 : ScoreAcc)
    (obj : Objective) (h : scoreStep p X y acc obj = .ok a1)
    (hp : acc.predCalls = if acc.yPred.isSome then 1 else 0)
    (hq : acc.probaCalls = if acc.yProba.isSome then 1 else 0) :
    (a1.predCalls = if a1.yPred.isSome then 1 else 0) ∧
    (a1.probaCalls = if a1.yProba.isSome then 1 else 0) := by
  unfold scoreStep at h
  by_cases hb : obj.score_needs_proba = true
  · rw [if_pos hb] at h
    rcases hc : acc.yProba with _ | v
    · rw [hc] at h
      rcases hpp : predictProbaP p X with e | v
      · rw [hpp, bind_err] at h; cases h
      · rw [hpp, bind_ok] at h
        cases h
        rw [hc] at hq
        simp_all
    · rw [hc] at h
      cases h
      rw [hc] at hq
      simp_all
  · rw [if_neg hb] at h
    rcases hc : acc.yPred with _ | s
    · rw [hc] at h
      rcases hpp : predictP p X with e | s
      · rw [hpp, bind_err] at h; cases h
      · rw [hpp, bind_ok] at h
        cases h
        rw [hc] at hp
        simp_all
    · rw [hc] at h
      cases h
      rw [hc] at hp
      simp_all

/-- Folding the scoring loop preserves the cache/counter invariant. -/
theorem scoreLoop_go_inv (p : Pipeline) (X : Frame) (y : Series) :
    ∀ (objs : List Objective) (acc acc' : ScoreAcc),
    List.foldlM (scoreStep p X y) acc objs = .ok acc' →
    acc.predCalls = (if acc.yPred.isSome then 1 else 0) →
    acc.probaCalls = (if acc.yProba.isSome then 1 else 0) →
    (acc'.predCalls = if acc'.yPred.isSome then 1 else 0) ∧
    (acc'.probaCalls = if acc'.yProba.isSome then 1 else 0) := by
  intro objs
  induction objs with
  | nil =>
      intro acc acc' h hp hq
      rw [List.foldlM_nil] at h
      cases h
      exact ⟨hp, hq⟩
  | cons o rest ih =>
      intro acc acc' h hp hq
      rw [List.foldlM_cons] at h
      rcases hs : scoreStep p X y acc o with e | a1
      · rw [hs, bind_err] at h; cases h
      · rw [hs, bind_ok] at h
        obtain ⟨h1, h2⟩ := scoreStep_inv p X y acc a1 o hs hp hq
        exact ih a1 acc' h h1 h2

/-- Folding the scoring loop appends one score per objective. -/
theorem scoreLoop_go_len (p : Pipeline) (X : Frame) (y : Series) :
    ∀ (objs : List Objective) (acc acc' : ScoreAcc),
    List.foldlM (scoreStep p X y) acc objs = .ok acc' →
    acc'.scoresRev.length = objs.length + acc.scoresRev.length := by
  intro objs
  induction objs with
  | nil =>
      intro acc acc' h
      rw [List.foldlM_nil] at h
      cases h
      simp
  | cons o rest ih =>
      intro acc acc' h
      rw [List.foldlM_cons] at h
      rcases hs : scoreStep p X y acc o with e | a1
      · rw [hs, bind_err] at h; cases h
      · rw [hs, bind_ok] at h
        have h1 := scoreStep_len p X y acc a1 o hs
        have h2 := ih a1 acc' h
        rw [h2, h1]
        simp only [List.length_cons]
        omega

/-- C8: within a single call to `score`, however many objectives are
requested, `predict` is invoked at most once and `predict_proba` at most
once — every further objective needing that kind of input reuses the
cached array. -/
theorem C8_score_caches_predictions (p : Pipeline) (X : Frame) (y : Series)
    (others : List Objective) (acc : ScoreAcc)
    (h : scoreLoop p X y (p.objective :: others) = .ok acc) :
    acc.predCalls ≤ 1 ∧ acc.probaCalls ≤ 1 := by
  obtain ⟨h1, h2⟩ := scoreLoop_go_inv p X y (p.objective :: others)
    ⟨none, none, 0, 0, []⟩ acc h rfl rfl
  constructor
  · rw [h1]; split <;> omega
  · rw [h2]; split <;> omega

/-- An AUC-like objective: scores on cached probability output. -/
def objProbaEx : Objective := { objEx with name := "AUC", score_needs_proba := true }

/-- The scoring-loop state after scoring the fitted two-column pipeline on
its own objective plus the AUC-like one (exercising both caches). -/
def accEx : ScoreAcc :=
  (scoreLoop pTwoColFit frameEx yEx (pTwoColFit.objective :: [objProbaEx])).toOption.getD
    ⟨none, none, 0, 0, []⟩

/-- Witness for C8 on the concrete two-objective scoring run. -/
theorem C8_score_caches_predictions_witness :
    accEx.predCalls ≤ 1 ∧ accEx.probaCalls ≤ 1 :=
  C8_score_caches_predictions pTwoColFit frameEx yEx [objProbaEx] accEx rfl

/-- C3 counterexample: two additional objectives that share the name
`"Recall"` (scoring 3 and 7).  The claim promises one mapping entry per
additional objective, but `OrderedDict(zip(...))` collapses the duplicate
key: only one entry survives (holding the last score), so the mapping has
1 entry for 2 requested objectives. -/
theorem C3_score_mapping_counterexample :
    scoreP pTwoColFit frameEx yEx
      [{ objEx with name := "Recall", scoreCore1 := fun _ _ => 3 },
       { objEx with name := "Recall", scoreCore1 := fun _ _ => 7 }] =
      .ok (5, [("Recall", 7)]) ∧
    [("Recall", (7 : ℚ))].length ≠
      [{ objEx with name := "Recall", scoreCore1 := fun _ _ => 3 },
       { objEx with name := "Recall", scoreCore1 := fun _ _ => 7 }].length :=
  ⟨rfl, by decide⟩

/-- C3 (amended): provided the additional objectives' names are pairwise
distinct, a successful `score` call returns exactly one primary score
paired with a mapping that has one entry per additional objective, keyed
by that objective's name, in the order requested; with no additional
objectives the mapping is empty.  (With duplicated names the
`OrderedDict` collapses entries, which the counterexample shows.) -/
theorem C3_score_mapping_amended (p : Pipeline) (X : Frame) (y : Series)
    (others : List Objective) (s : ℚ) (od : List (String × ℚ))
    (hnd : (others.map Objective.name).Nodup)
    (h : scoreP p X y others = .ok (s, od)) :
    od.map Prod.fst = others.map Objective.name ∧ od.length = others.length := by
  unfold scoreP at h
  rcases hl : scoreLoop p X y (p.objective :: others) with e | acc
  · rw [hl, bind_err] at h; cases h
  · rw [hl, bind_ok] at h
    have hlen : acc.scoresRev.length = others.length + 1 := by
      have := scoreLoop_go_len p X y (p.objective :: others) ⟨none, none, 0, 0, []⟩ acc hl
      simpa [List.length_cons] using this
    rcases hrev : acc.scoresRev.reverse with _ | ⟨s0, rest⟩
    · exfalso
      have : acc.scoresRev.length = 0 := by
        rw [← List.length_reverse, hrev, List.length_nil]
      omega
    · rw [hrev] at h
      have hrest : rest.length = others.length := by
        have : acc.scoresRev.reverse.length = acc.scoresRev.length := List.length_reverse _
        rw [hrev] at this
        simp only [List.length_cons] at this
        omega
      have hred : (if others.isEmpty = true then Except.ok (s0, ([] : List (String × ℚ)))
          else Except.ok (s0, odFromPairs ((others.map Objective.name).zip rest))) =
          Except.ok (s, od) := h
      by_cases hemp : others.isEmpty
      · rw [if_pos hemp] at hred
        have hnil : others = [] := List.isEmpty_iff.mp hemp
        simp only [Except.ok.injEq, Prod.mk.injEq] at hred
        obtain ⟨-, h2⟩ := hred
        subst hnil
        rw [← h2]
        constructor <;> rfl
      · rw [if_neg hemp] at hred
        simp only [Except.ok.injEq, Prod.mk.injEq] at hred
        obtain ⟨-, h2⟩ := hred
        have hle : (others.map Objective.name).length ≤ rest.length := by
          simp [hrest]
        have hkeys : ((others.map Objective.name).zip rest).map Prod.fst =
            others.map Objective.name := List.map_fst_zip _ _ hle
        have hodz : odFromPairs ((others.map Objective.name).zip rest) =
            (others.map Objective.name).zip rest := by
          apply odFromPairs_nodup
          rw [hkeys]
          exact hnd
        rw [← h2, hodz]
        constructor
        · exact hkeys
        · rw [List.length_zip]
          simp [hrest]

/-- The result of scoring the fitted two-column pipeline with one
additional (AUC-like) objective. -/
def scoreResEx : ℚ × List (String × ℚ) :=
  (scoreP pTwoColFit frameEx yEx [objProbaEx]).toOption.getD (0, [])

/-- Witness for C3 (amended) on the concrete run with one additional
objective. -/
theorem C3_score_mapping_amended_witness :
    scoreResEx.2.map Prod.fst = [objProbaEx].map Objective.name ∧
    scoreResEx.2.length = [objProbaEx].length :=
  C3_score_mapping_amended pTwoColFit frameEx yEx [objProbaEx] scoreResEx.1 scoreResEx.2
    (by decide) rfl

/-! ## C6 — the `_fit` threading loop -/

/-- The frame a non-final component passes on during `_fit`: the result of
its (fitted, when it needs fitting) transform applied to its input. -/
def stepFrame (X : Frame) (y : Series) (t : Transformer) : Frame :=
  if t.needs_fitting then t.transformCore (some (X, y)) X (some y)
  else t.transformCore t.state X (some y)

/-- Clean recursive description of the `_fit` threading: each transformer
in list order is fitted on its input exactly when it needs fitting, and
the data threads through `stepFrame`; returns the updated transformers and
the final frame handed to the estimator. -/
def threadAll : List Transformer → Frame → Series → List Transformer × Frame
  | [], X, _ => ([], X)
  | t :: rest, X, y =>
      let t' := if t.needs_fitting then { t with state := some (X, y) } else t
      let res := threadAll rest (stepFrame X y t) y
      (t' :: res.1, res.2)

/-- Clean recursive description of the feature-name record: each
transformer's name paired with the column names of the frame it received. -/
def recordNames : List Transformer → Frame → Series → List (String × List String)
  | [], _, _ => []
  | t :: rest, X, y => (t.name, X.cols) :: recordNames rest (stepFrame X y t) y

theorem recordNames_keys (y : Series) :
    ∀ (ts : List Transformer) (X : Frame),
    (recordNames ts X y).map Prod.fst = ts.map Transformer.name := by
  intro ts
  induction ts with
  | nil => intro X; rfl
  | cons t rest ih => intro X; simp [recordNames, ih]

/-- The `_fit` loop over transformer components equals the clean recursive
description, provided the feature-name record so far has no keys clashing
with the transformers' names and those names are pairwise distinct. -/
theorem fitLoop_transformers (y : Series) : ∀ (ts : List Transformer) (X : Frame)
    (ifn : List (String × List String)),
    (∀ q ∈ ifn, ∀ t ∈ ts, q.1 ≠ t.name) →
    (ts.map Transformer.name).Nodup →
    fitLoop (ts.map Component.transformer) X y ifn =
      .ok ((threadAll ts X y).1.map Component.transformer, (threadAll ts X y).2,
           ifn ++ recordNames ts X y) := by
  intro ts
  induction ts with
  | nil =>
      intro X ifn hdis hnd
      simp [fitLoop, threadAll, recordNames]
  | cons t rest ih =>
      intro X ifn hdis hnd
      obtain ⟨nm, nf, cp, pa, st, tc⟩ := t
      have hnotin : ∀ q ∈ ifn, q.1 ≠ nm :=
        fun q hq => hdis q hq ⟨nm, nf, cp, pa, st, tc⟩ (List.mem_cons_self _ _)
      have hupd : dictUpd ifn nm X.cols = ifn ++ [(nm, X.cols)] :=
        dictUpd_not_mem ifn nm X.cols hnotin
      have hhead : nm ∉ rest.map Transformer.name :=
        (List.nodup_cons.mp (by simpa using hnd)).1
      have hnd2 : (rest.map Transformer.name).Nodup :=
        (List.nodup_cons.mp (by simpa using hnd)).2
      have hdis2 : ∀ q ∈ dictUpd ifn nm X.cols, ∀ t' ∈ rest, q.1 ≠ t'.name := by
        intro q hq t' ht'
        rw [hupd] at hq
        rcases List.mem_append.mp hq with hq1 | hq2
        · exact hdis q hq1 t' (List.mem_cons_of_mem _ ht')
        · have hqt : q = (nm, X.cols) := by simpa using hq2
          rw [hqt]
          intro hcontra
          have h3 : nm = t'.name := hcontra
          rw [h3] at hhead
          exact hhead (List.mem_map_of_mem Transformer.name ht')
      cases nf
      · simp only [List.map_cons, fitLoop, componentFitStep, Component.name,
          Bool.false_eq_true, if_false, bind_ok]
        rw [ih (tc st X (some y)) (dictUpd ifn nm X.cols) hdis2 hnd2]
        simp [threadAll, recordNames, stepFrame, hupd, List.append_assoc]
        rw [bind_ok]
      · simp only [List.map_cons, fitLoop, componentFitStep, Component.name,
          if_true, bind_ok]
        rw [ih (tc (some (X, y)) X (some y)) (dictUpd ifn nm X.cols) hdis2 hnd2]
        simp [threadAll, recordNames, stepFrame, hupd, List.append_assoc]
        rw [bind_ok]

/-- C6: for every pipeline holding transformers followed by its estimator
(as `__init__` guarantees), with a fresh feature-name record and pairwise
distinct component names, `_fit` threads the data through each non-final
component in list order — fitting it on its input exactly when it needs
fitting — records under each component's name (and the estimator's) the
column names of the frame that component received, and fits the estimator
on the final transformed frame. -/
theorem C6_fit_threads_and_records (p : Pipeline) (ts : List Transformer)
    (X : Frame) (y : Series)
    (hcl : p.component_list = ts.map Component.transformer ++
      [Component.estimator p.estimator])
    (hifn : p.input_feature_names = [])
    (hnd : (ts.map Transformer.name ++ [p.estimator.name]).Nodup) :
    pfitInternal p X y = .ok { p with
      component_list := (threadAll ts X y).1.map Component.transformer ++
        [Component.estimator { p.estimator with state := some ((threadAll ts X y).2, y) }],
      estimator := { p.estimator with state := some ((threadAll ts X y).2, y) },
      input_feature_names :=
        recordNames ts X y ++ [(p.estimator.name, (threadAll ts X y).2.cols)] } := by
  obtain ⟨hnd1, -, hdisj⟩ := List.nodup_append.mp hnd
  have hestnot : p.estimator.name ∉ ts.map Transformer.name := by
    intro hmem
    exact hdisj hmem (List.mem_singleton_self _)
  have hdrop : p.component_list.dropLast = ts.map Component.transformer := by
    rw [hcl, List.dropLast_concat]
  unfold pfitInternal
  rw [hdrop, hifn]
  rw [fitLoop_transformers y ts X [] (by intro q hq; simp at hq) hnd1]
  rw [bind_ok]
  have hkeys : ∀ q ∈ recordNames ts X y, q.1 ≠ p.estimator.name := by
    intro q hq hc
    have hq1 : q.1 ∈ ts.map Transformer.name := by
      rw [← recordNames_keys y ts X]
      exact List.mem_map_of_mem Prod.fst hq
    rw [hc] at hq1
    exact hestnot hq1
  have hupd2 : dictUpd ([] ++ recordNames ts X y) p.estimator.name
      (threadAll ts X y).2.cols =
      recordNames ts X y ++ [(p.estimator.name, (threadAll ts X y).2.cols)] := by
    rw [List.nil_append]
    exact dictUpd_not_mem _ _ _ hkeys
  show Except.ok { p with
      component_list := (threadAll ts X y).1.map Component.transformer ++
        [Component.estimator { p.estimator with state := some ((threadAll ts X y).2, y) }],
      estimator := { p.estimator with state := some ((threadAll ts X y).2, y) },
      input_feature_names := dictUpd ([] ++ recordNames ts X y) p.estimator.name
        (threadAll ts X y).2.cols } = _
  rw [hupd2]

/-- The three-component pipeline (imputer, column marker, estimator) as
`__init__` builds it, used by the C6 witness. -/
def pC6 : Pipeline where
  objective := objEx
  component_list := clEx
  estimator := estEx
  input_feature_names := []
  name := "Random Forest Classifier w/ Simple Imputer + Column Marker"
  n_jobs := 1
  random_state := 0
  parameters := [("strategy", 0), ("n_estimators", 10)]

/-- Witness for C6 on the three-component pipeline. -/
theorem C6_fit_threads_and_records_witness :
    pfitInternal pC6 frameEx yEx = .ok { pC6 with
      component_list := (threadAll [impEx, renameEx] frameEx yEx).1.map
          Component.transformer ++
        [Component.estimator
          { pC6.estimator with state := some ((threadAll [impEx, renameEx] frameEx yEx).2, yEx) }],
      estimator :=
        { pC6.estimator with state := some ((threadAll [impEx, renameEx] frameEx yEx).2, yEx) },
      input_feature_names := recordNames [impEx, renameEx] frameEx yEx ++
        [(pC6.estimator.name, (threadAll [impEx, renameEx] frameEx yEx).2.cols)] } :=
  C6_fit_threads_and_records pC6 [impEx, renameEx] frameEx yEx rfl rfl (by decide)

/-- A column-marking transformer named `"Dup"`; the pipeline below holds
two instances of it, as two instances of one component class share one
`name`. -/
def dupT : Transformer := { renameEx with name := "Dup" }

/-- A pipeline holding two same-named transformers before the estimator. -/
def pDup : Pipeline where
  objective := objEx
  component_list := [Component.transformer dupT, Component.transformer dupT,
    Component.estimator estEx]
  estimator := estEx
  input_feature_names := []
  name := "Random Forest Classifier w/ Dup + Dup"
  n_jobs := 1
  random_state := 0
  parameters := []

/-- C6 counterexample: the claim promises a record of the feature names
seen *by each component* at fit time, for every pipeline.  With two
same-named components, `input_feature_names.update({component.name: ...})`
keys the record by name and the second component's entry overwrites the
first's: after `_fit`, the record holds 2 entries for 3 components, and
the first transformer's input columns `["a"]` appear nowhere — only the
second's `["ax"]` and the estimator's `["axx"]` survive. -/
theorem C6_fit_threads_and_records_counterexample :
    (pfitInternal pDup frameEx yEx).map Pipeline.input_feature_names =
      .ok [("Dup", ["ax"]), ("Random Forest Classifier", ["axx"])] ∧
    ([("Dup", ["ax"]), ("Random Forest Classifier", ["axx"])] :
        List (String × List String)).length ≠ pDup.component_list.length :=
  ⟨rfl, by decide⟩
